import Mathlib

/-!
Shallow embedding of the TSN package (`src/tsn.go`), a clock registry that
hands out transaction sequence numbers from named "wall clocks" backed by a
PostgreSQL connection per clock name.

Modelling choices:
* The global mutable state of the package (the `wallclocks` map, the memoized
  `dbTemplate` string) is an explicit `RegState` record threaded through the
  functions.  The Go map is an association list with overwrite-on-insert
  semantics (`mapInsert` / `mapLookup`).
* External effects (`os.Getenv`, `sql.Open` errors, `db.Ping` outcomes, the
  `row.Scan` outcome of `select clock.new_tsn()`) are supplied by an `Env`
  oracle record.
* Go panics raised by `checkErr` (and the nil-pointer dereference panic) are
  an `Except GoPanic` result; the global-state mutations performed before a
  panic survive it, so every internal function returns the state alongside the
  `Except` value.  The `defer`/`recover` blocks of the exported functions
  catch the `GoPanic` and replace it with the generic error string, exactly as
  the source does.
* Each successful `sql.Open` allocates a fresh connection object; the model
  tags it with an allocation counter `nextId` so distinct connections are
  distinguishable.  `RegState.closed` records which connection ids have been
  closed; the source never calls `Close`, so no operation touches it.
-/

deriving instance DecidableEq for Except

namespace TSN

/-- Outcome classification for `row.Scan` on the single-row query
`select clock.new_tsn()`: the round trip can fail because the query itself
errored, because no row came back, or because the column did not decode as an
`int64`. -/
inductive ScanErr where
  | queryError : ScanErr
  | noRows : ScanErr
  | decodeFailure : ScanErr
deriving DecidableEq

/-- A pooled database connection object as returned by `sql.Open`: it records
the connection target string it was opened with and a unique allocation id
(distinct `sql.Open` calls return distinct objects). -/
structure DB where
  target : String
  id : Nat
deriving DecidableEq

/-- The `WallClock` struct of the source: `db` is the `*sql.DB` pointer
(`none` models a nil pointer), `name` the clock name, `dbname` the derived
connection string. -/
structure WallClock where
  db : Option DB
  name : String
  dbname : String
deriving DecidableEq

/-- The package-global mutable state: the `wallclocks` map, the memoized
`dbTemplate` connection-string template, the allocation counter for fresh
connections, and the set of connection ids that have been closed (the source
never closes a connection, so no operation adds to it). -/
structure RegState where
  wallclocks : List (String × WallClock)
  dbTemplate : String
  nextId : Nat
  closed : List Nat
deriving DecidableEq

/-- The external world: the value of the `WALLCLOCK_DB` environment variable,
whether `sql.Open` errors for a given connection string, whether `db.Ping`
fails for a given connection target, and the `row.Scan` outcome of the
`select clock.new_tsn()` round trip on a given connection. -/
structure Env where
  wallclockDb : String
  openErr : String → Bool
  pingErr : String → Bool
  scan : DB → Except ScanErr Int

/-- A Go panic, carrying the trace tag passed to `checkErr` (or the runtime
error message for a nil-pointer dereference). -/
inductive GoPanic where
  | panic : String → GoPanic
deriving DecidableEq

/-- Lookup in the Go map `wallclocks`. -/
def mapLookup (k : String) : List (String × WallClock) → Option WallClock
  | [] => none
  | (k₁, v) :: rest => if k₁ = k then some v else mapLookup k rest

/-- Assignment `wallclocks[k] = v` in the Go map: overwrites an existing
binding, otherwise appends a new one. -/
def mapInsert (k : String) (v : WallClock) :
    List (String × WallClock) → List (String × WallClock)
  | [] => [(k, v)]
  | (k₁, v₁) :: rest =>
      if k₁ = k then (k, v) :: rest else (k₁, v₁) :: mapInsert k v rest

/-- `getDbTemplate`: read the connection-string template from the environment
the first time (while the cached value is the empty string), afterwards return
the cached value. -/
def getDbTemplate (env : Env) (s : RegState) : String × RegState :=
  if s.dbTemplate = "" then
    (env.wallclockDb, { s with dbTemplate := env.wallclockDb })
  else
    (s.dbTemplate, s)

/-- Boolean test that `p` starts the list `l` (the test `strings.Replace`
performs at each candidate position). -/
def leadsWith : List Char → List Char → Bool
  | [], _ => true
  | _ :: _, [] => false
  | p :: ps, c :: cs => p = c && leadsWith ps cs

/-- `strings.Replace(s, old, new, 1)` on character lists: replace the first
occurrence of `pat` by `rep`, leave the rest untouched; if `pat` never occurs
the list is returned unchanged.  An empty `pat` matches immediately at the
front, as in Go. -/
def replaceOnce (pat rep : List Char) : List Char → List Char
  | [] => if pat = [] then rep else []
  | c :: cs =>
      if leadsWith pat (c :: cs) then rep ++ List.drop pat.length (c :: cs)
      else c :: replaceOnce pat rep cs

/-- `strings.Replace(s, old, new, 1)` on `String`. -/
def stringsReplace1 (s old new : String) : String :=
  ⟨replaceOnce old.data new.data s.data⟩

/-- `dbname`: derive the connection string for a clock name by substituting
the name for the first `$database$` placeholder of the template. -/
def dbname (env : Env) (name : String) (s : RegState) : String × RegState :=
  let t := getDbTemplate env s
  (stringsReplace1 t.1 "$database$" name, t.2)

/-- `add`: construct a `WallClock` for `name`.  Derives the connection string,
opens the connection (`checkErr` panics on an open error), publishes the
handle into the map under the write lock, and only then pings the connection
(`ping`'s `checkErr` panics on failure — after publication, so the entry
survives a failed ping). -/
def add (env : Env) (name : String) (s : RegState) :
    Except GoPanic WallClock × RegState :=
  let d := dbname env name s
  if env.openErr d.1 then
    (.error (.panic "add"), d.2)
  else
    let db : DB := ⟨d.1, d.2.nextId⟩
    let wc : WallClock := ⟨some db, name, d.1⟩
    let s₂ : RegState := { d.2 with nextId := d.2.nextId + 1 }
    let s₃ : RegState := { s₂ with wallclocks := mapInsert name wc s₂.wallclocks }
    if env.pingErr d.1 then
      (.error (.panic "ping"), s₃)
    else
      (.ok wc, s₃)

/-- `get`: look the name up under the read lock; return the existing handle if
present, otherwise fall through to `add`. -/
def get (env : Env) (name : String) (s : RegState) :
    Except GoPanic WallClock × RegState :=
  match mapLookup name s.wallclocks with
  | some wc => (.ok wc, s)
  | none => add env name s

/-- `GetWallClock`: the exported entry point.  Runs `get` with a deferred
`recover` that converts any panic into the generic error
`"cannot create wall clock"`, discarding the panic payload. -/
def GetWallClock (env : Env) (name : String) (s : RegState) :
    Except String WallClock × RegState :=
  match get env name s with
  | (.ok wc, s₁) => (.ok wc, s₁)
  | (.error _, s₁) => (.error "cannot create wall clock", s₁)

/-- `newTSN`: the single round trip `select clock.new_tsn()` followed by
`row.Scan(&tsn)`.  Calling `QueryRow` on a nil `*sql.DB` dereferences a nil
pointer and panics; a `Scan` error makes `checkErr` panic. -/
def newTSN (env : Env) (db : Option DB) : Except GoPanic Int :=
  match db with
  | none => .error (.panic "runtime error: invalid memory address or nil pointer dereference")
  | some d =>
      match env.scan d with
      | .error _ => .error (.panic "newTSN")
      | .ok v => .ok v

/-- The body of the exported method `NewTSN` before its `recover`: a nil
receiver panics when `wc.db` is dereferenced, otherwise it is `newTSN` on the
handle's connection. -/
def newTSNbody (env : Env) (wc : Option WallClock) : Except GoPanic Int :=
  match wc with
  | none => .error (.panic "runtime error: invalid memory address or nil pointer dereference")
  | some w => newTSN env w.db

/-- `NewTSN`: the exported method.  The deferred `recover` converts any panic
into the generic error `"error while reading TSN"`; the named result `tsn`
keeps its zero value in that case. -/
def NewTSN (env : Env) (wc : Option WallClock) : Int × Option String :=
  match newTSNbody env wc with
  | .error _ => (0, some "error while reading TSN")
  | .ok v => (v, none)

/-- The two operations of the public surface, for stating registry-wide
invariants over arbitrary call sequences. -/
inductive Op where
  | obtain : String → Op
  | issue : Option WallClock → Op

/-- State effect of one public operation: `GetWallClock` threads the registry
state; `NewTSN` never touches it. -/
def runOp (env : Env) (s : RegState) : Op → RegState
  | .obtain name => (GetWallClock env name s).2
  | .issue _ => s

/-- State effect of a sequence of public operations. -/
def runOps (env : Env) : RegState → List Op → RegState
  | s, [] => s
  | s, op :: rest => runOps env (runOp env s op) rest

/-- The empty initial state of the package: empty map, template not yet read,
no connection allocated, nothing closed. -/
def initState : RegState := ⟨[], "", 0, []⟩

/-!
Interleaved execution model for concurrent callers of `get`.  A thread's
program counter moves through the phases of `get`/`add`, cut exactly at the
lock boundaries of the source: the read-locked lookup is one atomic step, the
construction (`dbname` + `sql.Open`) happens outside any lock, the publication
(`wallclocks[name] = wc` under the write lock) is one atomic step, and the
`ping` happens after the write lock is released.
-/

/-- Program counter of one caller running `get name`. -/
inductive TPhase where
  | start : TPhase
  | build : TPhase
  | publishP : WallClock → TPhase
  | pingP : WallClock → TPhase
  | done : Except GoPanic WallClock → TPhase
deriving DecidableEq

/-- One concurrent caller: the name it asked for and its program counter. -/
structure Thread where
  name : String
  phase : TPhase
deriving DecidableEq

/-- Advance one caller by one atomic step of `get`/`add`. -/
def stepThread (env : Env) (t : Thread) (s : RegState) : Thread × RegState :=
  match t.phase with
  | .start =>
      match mapLookup t.name s.wallclocks with
      | some wc => ({ t with phase := .done (.ok wc) }, s)
      | none => ({ t with phase := .build }, s)
  | .build =>
      let d := dbname env t.name s
      if env.openErr d.1 then
        ({ t with phase := .done (.error (.panic "add")) }, d.2)
      else
        let db : DB := ⟨d.1, d.2.nextId⟩
        ({ t with phase := .publishP ⟨some db, t.name, d.1⟩ },
         { d.2 with nextId := d.2.nextId + 1 })
  | .publishP wc =>
      ({ t with phase := .pingP wc },
       { s with wallclocks := mapInsert t.name wc s.wallclocks })
  | .pingP wc =>
      if env.pingErr wc.dbname then
        ({ t with phase := .done (.error (.panic "ping")) }, s)
      else
        ({ t with phase := .done (.ok wc) }, s)
  | .done _ => (t, s)

/-- Run a schedule: at each step the scheduler names the thread to advance. -/
def run (env : Env) (threads : List Thread) (s : RegState) :
    List Nat → List Thread × RegState
  | [] => (threads, s)
  | i :: rest =>
      match threads.get? i with
      | none => run env threads s rest
      | some t =>
          let r := stepThread env t s
          run env (threads.set i r.1) r.2 rest

/-- The handle a finished caller returned, if it finished successfully. -/
def resultOf (t : Thread) : Option WallClock :=
  match t.phase with
  | .done (.ok wc) => some wc
  | _ => none

/-- The handle returned by the `i`-th caller of a thread list. -/
def threadResult (ts : List Thread) (i : Nat) : Option WallClock :=
  match ts.get? i with
  | some t => resultOf t
  | none => none

/-- The error string of a boundary result, if it is an error. -/
def errOf (r : Except String WallClock) : Option String :=
  match r with
  | .error e => some e
  | .ok _ => none

/-!  Concrete environments used to evaluate the model on closed inputs. -/

/-- Environment where every external call succeeds and the template is the
bare placeholder. -/
def envOK : Env := ⟨"$database$", fun _ => false, fun _ => false, fun _ => .ok 42⟩

/-- Environment where the liveness probe (`db.Ping`) always fails. -/
def envPingFail : Env := ⟨"$database$", fun _ => false, fun _ => true, fun _ => .ok 42⟩

/-- Environment where `sql.Open` always errors. -/
def envOpenFail : Env := ⟨"$database$", fun _ => true, fun _ => false, fun _ => .ok 42⟩

/-- Environment where the `row.Scan` of the TSN round trip fails. -/
def envScanFail : Env := ⟨"$database$", fun _ => false, fun _ => false, fun _ => .error .noRows⟩

/-- A second environment with a different template value, to exercise
memoization against a changed environment. -/
def envB : Env := ⟨"other", fun _ => false, fun _ => false, fun _ => .ok 1⟩

/-- Two first-time callers of `get "x"`, both at their initial step. -/
def twoThreads : List Thread := [⟨"x", .start⟩, ⟨"x", .start⟩]

/-- The fully overlapped schedule: both callers pass the empty-map lookup
before either constructs, then both construct, both publish, both ping. -/
def raceSched : List Nat := [0, 1, 0, 1, 0, 1, 0, 1]

/-- The handle `GetWallClock envOK "x" initState` constructs. -/
def wcX : WallClock := ⟨some ⟨"x", 0⟩, "x", "x"⟩

/-- The registry state after `GetWallClock envOK "x" initState`. -/
def stateX : RegState := ⟨[("x", wcX)], "$database$", 1, []⟩

end TSN

namespace TSN

/-! ### Helper lemmas about the map and the state effects of the internals -/

theorem mapLookup_insert_self (k : String) (v : WallClock)
    (m : List (String × WallClock)) :
    mapLookup k (mapInsert k v m) = some v := by
  induction m with
  | nil => simp [mapInsert, mapLookup]
  | cons hd rest ih =>
      obtain ⟨k₁, v₁⟩ := hd
      by_cases hk : k₁ = k
      · simp [mapInsert, mapLookup, hk]
      · simp [mapInsert, mapLookup, hk, ih]

theorem mapLookup_insert_isSome (j k : String) (v : WallClock)
    (m : List (String × WallClock)) (h : (mapLookup j m).isSome = true) :
    (mapLookup j (mapInsert k v m)).isSome = true := by
  induction m with
  | nil => simp [mapLookup] at h
  | cons hd rest ih =>
      obtain ⟨k₁, v₁⟩ := hd
      by_cases hk : k₁ = k
      · subst hk
        by_cases hj : k₁ = j
        · subst hj
          simp [mapInsert, mapLookup]
        · simp [mapLookup, hj] at h
          simp [mapInsert, mapLookup, hj, h]
      · by_cases hj : k₁ = j
        · subst hj
          simp [mapInsert, mapLookup, hk]
        · simp [mapLookup, hj] at h
          simp [mapInsert, mapLookup, hk, hj, ih h]

theorem dbname_state (env : Env) (name : String) (s : RegState) :
    (dbname env name s).2.wallclocks = s.wallclocks ∧
    (dbname env name s).2.nextId = s.nextId ∧
    (dbname env name s).2.closed = s.closed := by
  unfold dbname getDbTemplate
  split <;> simp

/-! ### C3, C10, C4, C9 -/

/-- C3: `GetWallClock` never propagates a panic: it always returns an
ordinary (handle, error) result, and whenever the internal `get` panicked
the returned error is exactly the generic `"cannot create wall clock"`
string, the panic payload being discarded. -/
theorem getWallClock_error_containment (env : Env) (name : String) (s : RegState) :
    ((GetWallClock env name s).1 = .error "cannot create wall clock" ∧
      ∃ p, (get env name s).1 = .error p) ∨
    (∃ wc, (GetWallClock env name s).1 = .ok wc ∧ (get env name s).1 = .ok wc) := by
  rcases hr : get env name s with ⟨r, s₁⟩
  cases r with
  | ok wc => exact Or.inr ⟨wc, by simp [GetWallClock, hr], rfl⟩
  | error p => exact Or.inl ⟨by simp [GetWallClock, hr], ⟨p, rfl⟩⟩


/-- C10: `NewTSN` is total even on invalid handles: on a nil receiver, or a
handle whose connection pointer is nil, the body raises a nil-pointer
dereference panic, the deferred recover catches it, and the call returns the
zero TSN with the generic `"error while reading TSN"` error. -/
theorem newTSN_nil_handle_recovered (env : Env) (name dn : String) :
    NewTSN env none = (0, some "error while reading TSN") ∧
    NewTSN env (some ⟨none, name, dn⟩) = (0, some "error while reading TSN") ∧
    (∃ p, newTSNbody env none = .error p) ∧
    (∃ p, newTSNbody env (some ⟨none, name, dn⟩) = .error p) :=
  ⟨rfl, rfl, ⟨_, rfl⟩, ⟨_, rfl⟩⟩

/-- C4: on a handle with a live connection, `NewTSN` returns the fetched
value with no error exactly when the single round trip scans successfully,
and returns the generic boundary error (discarding the cause) exactly when
the round trip fails in any way (query error, no row, decode failure). -/
theorem newTSN_roundtrip (env : Env) (w : WallClock) (d : DB)
    (hdb : w.db = some d) :
    (∀ v : Int, env.scan d = .ok v → NewTSN env (some w) = (v, none)) ∧
    (∀ e : ScanErr, env.scan d = .error e →
      NewTSN env (some w) = (0, some "error while reading TSN")) := by
  constructor
  · intro v hv
    simp [NewTSN, newTSNbody, newTSN, hdb, hv]
  · intro e he
    simp [NewTSN, newTSNbody, newTSN, hdb, he]

/-- Witness for `newTSN_roundtrip` at concrete inputs. -/
theorem newTSN_roundtrip_witness :
    NewTSN envOK (some ⟨some ⟨"x", 0⟩, "x", "x"⟩) = (42, none) ∧
    NewTSN envScanFail (some ⟨some ⟨"x", 0⟩, "x", "x"⟩) =
      (0, some "error while reading TSN") :=
  ⟨(newTSN_roundtrip envOK ⟨some ⟨"x", 0⟩, "x", "x"⟩ ⟨"x", 0⟩ rfl).1 42 rfl,
   (newTSN_roundtrip envScanFail ⟨some ⟨"x", 0⟩, "x", "x"⟩ ⟨"x", 0⟩ rfl).2 .noRows rfl⟩

/-- C9: the connection-string template is memoized.  While the cached value
is empty, `getDbTemplate` reads the environment and caches what it read;
once the cache is non-empty, every later call returns the cached value
unchanged and ignores the (possibly different) current environment. -/
theorem getDbTemplate_memoized (env env₁ : Env) (s : RegState) :
    (s.dbTemplate ≠ "" → getDbTemplate env s = (s.dbTemplate, s)) ∧
    (s.dbTemplate = "" →
      getDbTemplate env s =
        (env.wallclockDb, { s with dbTemplate := env.wallclockDb })) ∧
    (s.dbTemplate = "" → env.wallclockDb ≠ "" →
      getDbTemplate env₁ ((getDbTemplate env s).2) =
        ((getDbTemplate env s).1, (getDbTemplate env s).2)) := by
  refine ⟨fun h => ?_, fun h => ?_, fun h h₁ => ?_⟩
  · simp [getDbTemplate, h]
  · simp [getDbTemplate, h]
  · simp [getDbTemplate, h, h₁]

/-- Witness for `getDbTemplate_memoized`: after the first read cached the
value from `envOK`, a call under the different environment `envB` still
returns the cached value. -/
theorem getDbTemplate_memoized_witness :
    getDbTemplate envB ((getDbTemplate envOK initState).2) =
      ((getDbTemplate envOK initState).1, (getDbTemplate envOK initState).2) :=
  (getDbTemplate_memoized envOK envB initState).2.2 rfl (by decide)

end TSN

namespace TSN

theorem add_ok_lookup (env : Env) (name : String) (s : RegState)
    (wc : WallClock) (s₁ : RegState) (h : add env name s = (.ok wc, s₁)) :
    mapLookup name s₁.wallclocks = some wc := by
  by_cases ho : env.openErr (dbname env name s).1
  · simp [add, ho] at h
  · by_cases hp : env.pingErr (dbname env name s).1
    · simp [add, ho, hp] at h
    · simp [add, ho, hp] at h
      obtain ⟨h1, h2⟩ := h
      subst h1
      subst h2
      simp [mapLookup_insert_self]

theorem getWallClock_found (env : Env) (name : String) (s : RegState)
    (wc : WallClock) (h : mapLookup name s.wallclocks = some wc) :
    GetWallClock env name s = (.ok wc, s) := by
  simp [GetWallClock, get, h]

theorem getWallClock_ok_lookup (env : Env) (name : String) (s : RegState)
    (wc : WallClock) (s₁ : RegState)
    (h : GetWallClock env name s = (.ok wc, s₁)) :
    mapLookup name s₁.wallclocks = some wc := by
  have hg : get env name s = (.ok wc, s₁) := by
    rcases hr : get env name s with ⟨r, s₂⟩
    cases r with
    | ok w =>
        simp [GetWallClock, hr] at h
        obtain ⟨h1, h2⟩ := h
        subst h1
        subst h2
        rfl
    | error p => simp [GetWallClock, hr] at h
  rw [get] at hg
  rcases hm : mapLookup name s.wallclocks with _ | w
  · rw [hm] at hg
    exact add_ok_lookup env name s wc s₁ hg
  · rw [hm] at hg
    simp at hg
    obtain ⟨h1, h2⟩ := hg
    subst h1
    subst h2
    exact hm

end TSN

namespace TSN

/-- C5: a second sequential successful `GetWallClock` with the same name hits
the fast path: it finds the published handle in the map and returns the very
same handle with the registry state untouched (in particular no second
connection is constructed, since the state — including the allocation
counter — is unchanged). -/
theorem obtainClock_idempotent (env : Env) (name : String) (s s₁ : RegState)
    (wc : WallClock) (h : GetWallClock env name s = (.ok wc, s₁)) :
    GetWallClock env name s₁ = (.ok wc, s₁) :=
  getWallClock_found env name s₁ wc (getWallClock_ok_lookup env name s wc s₁ h)

/-- Witness for `obtainClock_idempotent` at a concrete first call. -/
theorem obtainClock_idempotent_witness :
    GetWallClock envOK "x" stateX = (.ok wcX, stateX) :=
  obtainClock_idempotent envOK "x" initState stateX wcX (by decide)

theorem add_preserves_keys (env : Env) (name : String) (s : RegState)
    (k : String) (h : (mapLookup k s.wallclocks).isSome = true) :
    (mapLookup k (add env name s).2.wallclocks).isSome = true := by
  have hw := (dbname_state env name s).1
  by_cases ho : env.openErr (dbname env name s).1
  · simp [add, ho, hw, h]
  · by_cases hp : env.pingErr (dbname env name s).1
    · simp [add, ho, hp]
      rw [hw]
      exact mapLookup_insert_isSome k name _ _ h
    · simp [add, ho, hp]
      rw [hw]
      exact mapLookup_insert_isSome k name _ _ h

theorem get_state_cases (env : Env) (name : String) (s : RegState) :
    (get env name s).2 = s ∨ (get env name s).2 = (add env name s).2 := by
  rw [get]
  rcases mapLookup name s.wallclocks with _ | w
  · exact Or.inr rfl
  · exact Or.inl rfl

theorem getWallClock_state (env : Env) (name : String) (s : RegState) :
    (GetWallClock env name s).2 = (get env name s).2 := by
  rw [GetWallClock]
  rcases hr : get env name s with ⟨r, s₁⟩
  cases r <;> rfl

theorem runOp_preserves_keys (env : Env) (op : Op) (s : RegState) (k : String)
    (h : (mapLookup k s.wallclocks).isSome = true) :
    (mapLookup k (runOp env s op).wallclocks).isSome = true := by
  cases op with
  | issue wc => exact h
  | obtain name =>
      show (mapLookup k (GetWallClock env name s).2.wallclocks).isSome = true
      rw [getWallClock_state]
      rcases get_state_cases env name s with h1 | h1 <;> rw [h1]
      · exact h
      · exact add_preserves_keys env name s k h

/-- C7: the registry only grows.  Over any sequence of public operations
(clock lookup/construction and TSN issuance), every name present in the map
beforehand is still present afterwards; no operation removes an entry. -/
theorem registry_only_grows (env : Env) (ops : List Op) (s : RegState)
    (k : String) (h : (mapLookup k s.wallclocks).isSome = true) :
    (mapLookup k (runOps env s ops).wallclocks).isSome = true := by
  induction ops generalizing s with
  | nil => exact h
  | cons op rest ih =>
      rw [runOps]
      exact ih (runOp env s op) (runOp_preserves_keys env op s k h)

/-- Witness for `registry_only_grows`: an entry for `"x"` survives a lookup
of another name followed by a TSN issuance. -/
theorem registry_only_grows_witness :
    (mapLookup "x" (runOps envOK stateX [.obtain "y", .issue none]).wallclocks).isSome = true :=
  registry_only_grows envOK [.obtain "y", .issue none] stateX "x" (by decide)

/-- C8: `GetWallClock` never validates the clock name.  With the empty string
as name (absent from the map, external calls succeeding) it proceeds straight
to lookup and construction: it returns a fully constructed handle for `""`,
publishes it under the empty-string key, and allocates a connection — no
InvalidName-style error exists anywhere on this path. -/
theorem empty_name_not_validated (env : Env) (s : RegState)
    (h : mapLookup "" s.wallclocks = none)
    (ho : env.openErr (dbname env "" s).1 = false)
    (hp : env.pingErr (dbname env "" s).1 = false) :
    (GetWallClock env "" s).1 =
      .ok ⟨some ⟨(dbname env "" s).1, s.nextId⟩, "", (dbname env "" s).1⟩ ∧
    mapLookup "" (GetWallClock env "" s).2.wallclocks =
      some ⟨some ⟨(dbname env "" s).1, s.nextId⟩, "", (dbname env "" s).1⟩ ∧
    (GetWallClock env "" s).2.nextId = s.nextId + 1 := by
  have hn := (dbname_state env "" s).2.1
  simp [GetWallClock, get, h, add, ho, hp, hn, mapLookup_insert_self]

/-- Witness for `empty_name_not_validated` on the empty registry. -/
theorem empty_name_not_validated_witness :
    (GetWallClock envOK "" initState).1 = .ok ⟨some ⟨"", 0⟩, "", ""⟩ ∧
    mapLookup "" (GetWallClock envOK "" initState).2.wallclocks =
      some ⟨some ⟨"", 0⟩, "", ""⟩ ∧
    (GetWallClock envOK "" initState).2.nextId = initState.nextId + 1 :=
  empty_name_not_validated envOK initState rfl rfl rfl

end TSN

namespace TSN

/-- C1 counterexample: with the liveness probe failing, `GetWallClock "x"`
on the empty registry returns the generic construction error, yet the
registry is NOT left unchanged — `"x"` is already visible in the map as a
poisoned entry. -/
theorem publish_before_probe_cex :
    errOf (GetWallClock envPingFail "x" initState).1 = some "cannot create wall clock" ∧
    (mapLookup "x" (GetWallClock envPingFail "x" initState).2.wallclocks).isSome = true := by
  decide

/-- C1 amended: `add` publishes the handle after a successful `sql.Open` but
BEFORE the liveness probe.  On an open failure the map is unchanged; once the
open succeeds the name is visible in the map regardless of the probe's
outcome; and when the probe fails the call panics (so the boundary reports an
error) while the poisoned entry stays published, and a later `GetWallClock`
returns that very entry without retrying construction. -/
theorem add_publishes_before_probe (env : Env) (name : String) (s : RegState) :
    (env.openErr (dbname env name s).1 = true →
      (add env name s).1 = .error (.panic "add") ∧
      (add env name s).2.wallclocks = s.wallclocks) ∧
    (env.openErr (dbname env name s).1 = false →
      mapLookup name (add env name s).2.wallclocks =
        some ⟨some ⟨(dbname env name s).1, s.nextId⟩, name, (dbname env name s).1⟩) ∧
    (env.openErr (dbname env name s).1 = false →
      env.pingErr (dbname env name s).1 = true →
      (add env name s).1 = .error (.panic "ping") ∧
      GetWallClock env name (add env name s).2 =
        (.ok ⟨some ⟨(dbname env name s).1, s.nextId⟩, name, (dbname env name s).1⟩,
         (add env name s).2)) := by
  have hw := (dbname_state env name s).1
  have hn := (dbname_state env name s).2.1
  have hpub : env.openErr (dbname env name s).1 = false →
      mapLookup name (add env name s).2.wallclocks =
        some ⟨some ⟨(dbname env name s).1, s.nextId⟩, name, (dbname env name s).1⟩ := by
    intro ho
    by_cases hp : env.pingErr (dbname env name s).1 <;>
      simp [add, ho, hp, hn, mapLookup_insert_self]
  refine ⟨fun ho => ⟨by simp [add, ho], by simp [add, ho, hw]⟩, hpub, fun ho hp => ?_⟩
  exact ⟨by simp [add, ho, hp], getWallClock_found env name _ _ (hpub ho)⟩

/-- Witness for `add_publishes_before_probe`: the failed-probe construction
of `"x"` panics, yet the next `GetWallClock` happily returns the poisoned
entry. -/
theorem add_publishes_before_probe_witness :
    (add envPingFail "x" initState).1 = .error (.panic "ping") ∧
    GetWallClock envPingFail "x" (add envPingFail "x" initState).2 =
      (.ok ⟨some ⟨(dbname envPingFail "x" initState).1, initState.nextId⟩, "x",
            (dbname envPingFail "x" initState).1⟩,
       (add envPingFail "x" initState).2) :=
  (add_publishes_before_probe envPingFail "x" initState).2.2 rfl rfl

/-- C2 counterexample: under the fully overlapped schedule, two concurrent
first-time callers of `get "x"` construct TWO connections (the allocation
counter reaches 2), finish with DIFFERENT handles, and nothing is ever
closed — refuting single construction, handle convergence, and cleanup. -/
theorem race_duplicate_construction_cex :
    (run envOK twoThreads initState raceSched).2.nextId = 2 ∧
    threadResult (run envOK twoThreads initState raceSched).1 0 ≠
      threadResult (run envOK twoThreads initState raceSched).1 1 ∧
    (threadResult (run envOK twoThreads initState raceSched).1 0).isSome = true ∧
    (threadResult (run envOK twoThreads initState raceSched).1 1).isSome = true ∧
    (run envOK twoThreads initState raceSched).2.closed = [] := by
  decide

theorem stepThread_closed (env : Env) (t : Thread) (s : RegState) :
    (stepThread env t s).2.closed = s.closed := by
  have hc := (dbname_state env t.name s).2.2
  cases hph : t.phase with
  | start =>
      simp only [stepThread, hph]
      rcases mapLookup t.name s.wallclocks with _ | wc <;> rfl
  | build =>
      simp only [stepThread, hph]
      split <;> simpa using hc
  | publishP wc => simp [stepThread, hph]
  | pingP wc =>
      simp only [stepThread, hph]
      split <;> rfl
  | done r => simp [stepThread, hph]

theorem run_closed (env : Env) (threads : List Thread) (s : RegState)
    (sched : List Nat) : (run env threads s sched).2.closed = s.closed := by
  induction sched generalizing threads s with
  | nil => rfl
  | cons i rest ih =>
      rw [run]
      rcases ht : threads.get? i with _ | t
      · exact ih threads s
      · rw [ih]
        exact stepThread_closed env t s

/-- C2 amended: the source has no double-checked locking and never closes a
connection.  No step of any interleaving ever closes anything; and in the
fully overlapped two-caller schedule each caller constructs its own
connection, the later publication overwrites the earlier one (the map ends
holding the second caller's handle), and the callers finish with different
handles. -/
theorem race_overwrites_and_leaks :
    (∀ (env : Env) (t : Thread) (s : RegState),
      (stepThread env t s).2.closed = s.closed) ∧
    (∀ (env : Env) (threads : List Thread) (s : RegState) (sched : List Nat),
      (run env threads s sched).2.closed = s.closed) ∧
    (mapLookup "x" (run envOK twoThreads initState raceSched).2.wallclocks =
      threadResult (run envOK twoThreads initState raceSched).1 1 ∧
     threadResult (run envOK twoThreads initState raceSched).1 0 ≠
      threadResult (run envOK twoThreads initState raceSched).1 1 ∧
     (run envOK twoThreads initState raceSched).2.nextId = 2) :=
  ⟨stepThread_closed, run_closed, by decide⟩

end TSN

namespace TSN

theorem leadsWith_iff (p l : List Char) :
    leadsWith p l = true ↔ ∃ r, l = p ++ r := by
  induction p generalizing l with
  | nil => simp [leadsWith]
  | cons x ps ih =>
      cases l with
      | nil => simp [leadsWith]
      | cons c cs =>
          simp only [leadsWith, Bool.and_eq_true, decide_eq_true_eq, ih]
          constructor
          · rintro ⟨hx, r, hr⟩
            subst hx
            subst hr
            exact ⟨r, rfl⟩
          · rintro ⟨r, hr⟩
            rw [List.cons_append] at hr
            injection hr with h1 h2
            exact ⟨h1.symm, r, h2⟩

theorem replaceOnce_no_occurrence (pat rep t : List Char) (hp : pat ≠ [])
    (h : ∀ a b : List Char, t ≠ a ++ pat ++ b) :
    replaceOnce pat rep t = t := by
  induction t with
  | nil => simp [replaceOnce, hp]
  | cons c cs ih =>
      rcases hb : leadsWith pat (c :: cs) with _ | _
      · simp only [replaceOnce, hb, if_neg Bool.false_ne_true, List.cons.injEq, true_and]
        refine ih fun a b hab => h (c :: a) b ?_
        simp [hab]
      · obtain ⟨r, hr⟩ := (leadsWith_iff pat (c :: cs)).1 hb
        exact absurd hr (by simpa using h [] r)

theorem replaceOnce_first_occurrence (pat rep : List Char) (hp : pat ≠ [])
    (a b : List Char)
    (hmin : ∀ a₁ b₁ : List Char, a ++ pat ++ b = a₁ ++ pat ++ b₁ →
      a.length ≤ a₁.length) :
    replaceOnce pat rep (a ++ pat ++ b) = a ++ rep ++ b := by
  induction a with
  | nil =>
      rcases hpat : pat with _ | ⟨x, ps⟩
      · exact absurd hpat hp
      · have hlw : leadsWith (x :: ps) ((x :: ps) ++ b) = true :=
          (leadsWith_iff _ _).2 ⟨b, rfl⟩
        simp only [List.nil_append, List.cons_append] at hlw ⊢
        simp only [replaceOnce, hlw, if_pos rfl]
        rw [← List.cons_append, List.drop_left]
        simp
  | cons c a₁ ih =>
      have hlw : leadsWith pat ((c :: a₁) ++ pat ++ b) = false := by
        rcases hb : leadsWith pat ((c :: a₁) ++ pat ++ b) with _ | _
        · rfl
        · obtain ⟨r, hr⟩ := (leadsWith_iff pat _).1 hb
          have := hmin [] r (by simpa using hr)
          simp at this
      have harr : (c :: a₁) ++ pat ++ b = c :: (a₁ ++ pat ++ b) := by simp
      rw [harr]
      rw [harr] at hlw
      simp only [replaceOnce, hlw, if_neg Bool.false_ne_true]
      rw [ih fun x y hxy => Nat.succ_le_succ_iff.1 (hmin (c :: x) y (by simp [hxy]))]
      simp

theorem leadsWith_drop_of_decomposition (pat x y l : List Char)
    (h : l = x ++ pat ++ y) :
    leadsWith pat (List.drop x.length l) = true := by
  subst h
  rw [List.append_assoc, List.drop_left]
  exact (leadsWith_iff _ _).2 ⟨y, rfl⟩

theorem replaceOnce_spec (pat rep t : List Char) (hp : pat ≠ []) :
    ((∀ i : Nat, i < t.length → leadsWith pat (List.drop i t) = false) →
      replaceOnce pat rep t = t) ∧
    (∀ a b : List Char, t = a ++ pat ++ b →
      (∀ i : Nat, i < a.length → leadsWith pat (List.drop i t) = false) →
      replaceOnce pat rep t = a ++ rep ++ b) := by
  constructor
  · intro h
    refine replaceOnce_no_occurrence pat rep t hp fun a b hab => ?_
    have hpl : 0 < pat.length := List.length_pos.2 hp
    have hlt : a.length < t.length := by
      rw [hab]
      simp only [List.length_append]
      omega
    have hf := h a.length hlt
    rw [leadsWith_drop_of_decomposition pat a b t hab] at hf
    simp at hf
  · intro a b hab h
    subst hab
    refine replaceOnce_first_occurrence pat rep hp a b fun a₁ b₁ heq => ?_
    by_contra hlt
    push_neg at hlt
    have hf := h a₁.length hlt
    rw [leadsWith_drop_of_decomposition pat a₁ b₁ _ heq] at hf
    simp at hf

/-- C6: the connection-target derivation substitutes the clock name for
exactly the first occurrence of the `$database$` placeholder.  `dbname` is
`stringsReplace1` applied to the template, and `stringsReplace1` maps a
template with no occurrence to itself, and a template splitting as
`a ++ "$database$" ++ b` with no occurrence starting inside `a` (i.e. the
first occurrence) to `a ++ n ++ b`, later occurrences untouched inside `b`. -/
theorem dbname_replaces_first_occurrence (t n : String) :
    (∀ (env : Env) (nm : String) (s : RegState),
      (dbname env nm s).1 = stringsReplace1 (getDbTemplate env s).1 "$database$" nm) ∧
    ((∀ i : Nat, i < t.data.length →
        leadsWith "$database$".data (List.drop i t.data) = false) →
      stringsReplace1 t "$database$" n = t) ∧
    (∀ a b : String, t = a ++ "$database$" ++ b →
      (∀ i : Nat, i < a.data.length →
        leadsWith "$database$".data (List.drop i t.data) = false) →
      stringsReplace1 t "$database$" n = a ++ n ++ b) := by
  have hp : ("$database$" : String).data ≠ [] := by decide
  refine ⟨fun env nm s => rfl, fun h => ?_, fun a b hab h => ?_⟩
  · apply String.ext
    show replaceOnce "$database$".data n.data t.data = t.data
    exact (replaceOnce_spec _ _ t.data hp).1 h
  · apply String.ext
    show replaceOnce "$database$".data n.data t.data = (a ++ n ++ b).data
    rw [String.data_append, String.data_append]
    have habd : t.data = a.data ++ "$database$".data ++ b.data := by
      rw [hab, String.data_append, String.data_append]
    exact (replaceOnce_spec _ _ t.data hp).2 a.data b.data habd h

/-- Witness for `dbname_replaces_first_occurrence`: a template without the
placeholder is unchanged, and with two occurrences only the first is
replaced. -/
theorem dbname_replaces_first_occurrence_witness :
    stringsReplace1 "abc" "$database$" "N" = "abc" ∧
    stringsReplace1 "a$database$b$database$c" "$database$" "N" = "aNb$database$c" :=
  ⟨(dbname_replaces_first_occurrence "abc" "N").2.1 (by decide),
   (dbname_replaces_first_occurrence "a$database$b$database$c" "N").2.2
      "a" "b$database$c" (by decide) (by decide)⟩

end TSN
